import Mathlib

/-
  Verification development for the daemon base layer (`daemons/base.py`):
  basic-auth-gated JSON-RPC dispatch, the per-wallet session registry, and
  the subscribe/poll event-delivery engine.

  Python dictionaries are embedded as association lists with unique keys
  (insertion ordered), Python `None`/strings used as event tags as
  `Option String`, machine-level JSON values as the `Json` inductive below.
  Fallible Python code is embedded with `Except String`, the string being
  the exception class of the error that was raised.
-/

set_option autoImplicit false

deriving instance DecidableEq for Except

/-- Association-list lookup, the embedding of Python's `d[k]` / `d.get(k)`
for string-keyed dictionaries. -/
def alookup {α : Type} : List (String × α) → String → Option α
  | [], _ => none
  | (k, v) :: rest, x => if k = x then some v else alookup rest x

/-- Association-list assignment `d[k] = v`: replaces the binding in place if
the key is present, appends it otherwise (Python dict insertion order). -/
def insertD {α : Type} : List (String × α) → String → α → List (String × α)
  | [], k, v => [(k, v)]
  | (k', v') :: rest, k, v =>
    if k' = k then (k', v) :: rest else (k', v') :: insertD rest k v

/- ### String helpers for `decode_auth`

`str.replace`, `str.split` and `base64.b64decode` are embedded over character
lists with explicit fuel so that every definition evaluates by `rfl`/`decide`. -/

/-- `leadsWith p l` : the character list `l` starts with `p`. -/
def leadsWith : List Char → List Char → Bool
  | [], _ => true
  | _ :: _, [] => false
  | p :: ps, c :: cs => p == c && leadsWith ps cs

/-- Fuel-driven worker for `pyReplace` (fuel is the length of the scanned list,
each step consumes at least one character when the pattern is nonempty). -/
def replaceAux (old new : List Char) : Nat → List Char → List Char
  | _, [] => []
  | 0, rest => rest
  | fuel + 1, c :: rest =>
    if !old.isEmpty && leadsWith old (c :: rest) then
      new ++ replaceAux old new fuel ((c :: rest).drop old.length)
    else
      c :: replaceAux old new fuel rest

/-- Python `s.replace(old, new)` for a nonempty pattern: replaces every
non-overlapping occurrence of `old`, scanning left to right. -/
def pyReplace (s old new : String) : String :=
  String.mk (replaceAux old.data new.data s.data.length s.data)

/-- Fuel-driven worker for `pySplit`. -/
def splitAux (sep : List Char) : Nat → List Char → List Char → List (List Char)
  | _, acc, [] => [acc.reverse]
  | 0, acc, rest => [acc.reverse ++ rest]
  | fuel + 1, acc, c :: rest =>
    if leadsWith sep (c :: rest) then
      acc.reverse :: splitAux sep fuel [] ((c :: rest).drop sep.length)
    else
      splitAux sep fuel (c :: acc) rest

/-- Python `s.split(sep)` for a nonempty separator. -/
def pySplit (s sep : String) : List String :=
  (splitAux sep.data s.data.length [] s.data).map String.mk

/-- Value of a base64-alphabet character, `none` for foreign characters. -/
def b64Val (c : Char) : Option Nat :=
  if 'A' ≤ c ∧ c ≤ 'Z' then some (c.toNat - 65)
  else if 'a' ≤ c ∧ c ≤ 'z' then some (c.toNat - 97 + 26)
  else if '0' ≤ c ∧ c ≤ '9' then some (c.toNat - 48 + 52)
  else if c = '+' then some 62
  else if c = '/' then some 63
  else none

/-- Turns a list of 6-bit base64 digit values into the decoded bytes. -/
def b64Quads : List Nat → List Nat
  | a :: b :: c :: d :: rest =>
    (a * 4 + b / 16) :: ((b % 16) * 16 + c / 4) :: ((c % 4) * 64 + d) :: b64Quads rest
  | [a, b] => [a * 4 + b / 16]
  | [a, b, c] => [a * 4 + b / 16, (b % 16) * 16 + c / 4]
  | _ => []

/-- Python `base64.b64decode(s)` on a `str` argument with default
`validate=False`: non-ASCII input raises, characters outside the base64
alphabet are discarded before the padding check, and a digit count that is
not completable to full quads raises `binascii.Error`.  Malformed-padding
corners are treated more strictly than CPython's legacy decoder, which
skips a quad-initial `=` and keeps parsing where this model ends the digit
scan; the headers appearing in the theorems below decode identically under
both semantics. -/
def b64decode (s : String) : Except String (List Nat) :=
  if s.data.any (fun c => 128 ≤ c.toNat) then .error "ValueError"
  else
    let kept := s.data.filter (fun c => (b64Val c).isSome || c == '=')
    let digits := kept.takeWhile (fun c => c != '=')
    let pads := ((kept.drop digits.length).takeWhile (fun c => c == '=')).length
    let vals := digits.filterMap b64Val
    match digits.length % 4 with
    | 0 => .ok (b64Quads vals)
    | 2 => if 2 ≤ pads then .ok (b64Quads vals) else .error "binascii.Error"
    | 3 => if 1 ≤ pads then .ok (b64Quads vals) else .error "binascii.Error"
    | _ => .error "binascii.Error"

/-- `bytes.decode("latin1")`: each byte becomes the character with that code. -/
def latin1Decode (bytes : List Nat) : String :=
  String.mk (bytes.map Char.ofNat)

/-- `BaseDaemon.decode_auth`: `None`/empty header yields `(None, None)`;
otherwise strips `"Basic "`, base64-decodes, decodes latin1 and splits on
`":"` into exactly user and password.  A decoding failure or a colon count
different from one raises (escaping the caller). -/
def decode_auth (authstr : Option String) : Except String (Option String × Option String) :=
  match authstr with
  | none => .ok (none, none)
  | some a =>
    if a.isEmpty then .ok (none, none)
    else
      match b64decode (pyReplace a "Basic " "") with
      | .error e => .error e
      | .ok bytes =>
        match pySplit (latin1Decode bytes) ":" with
        | [u, v] => .ok (some u, some v)
        | _ => .error "ValueError"

/- ### JSON values and Python truthiness -/

/-- JSON values as delivered by `request.json()` (integers only; floats are
out of scope for the dispatch behaviour modelled here). -/
inductive Json where
  | null
  | bool (b : Bool)
  | num (n : Int)
  | str (s : String)
  | arr (xs : List Json)
  | obj (fields : List (String × Json))

/-- Python truthiness of a JSON value (`if not x`). -/
def jsonFalsy : Json → Bool
  | .null => true
  | .bool b => !b
  | .num n => n == 0
  | .str s => s.isEmpty
  | .arr xs => xs.isEmpty
  | .obj fs => fs.isEmpty

/-- `data.get(k, d)` on a parsed JSON object (duplicate keys: last one wins,
as in Python's `json` module). -/
def pyGetD (fields : List (String × Json)) (k : String) (d : Json) : Json :=
  fields.foldl (fun acc kv => if kv.1 = k then kv.2 else acc) d

/-- `method in <dict with the given string keys>` for a JSON value: only a
string can match a string key. -/
def jsonMem (j : Json) (keys : List String) : Bool :=
  match j with
  | .str s => keys.contains s
  | _ => false

/-- `method in <dict with the given string keys>` as an expression that can
raise: an unhashable value (a JSON array or object, Python list/dict) makes
the membership test itself raise `TypeError: unhashable type`; any other
value is hashable and simply fails to match a string key unless it is a
matching string. -/
def jsonMemH (j : Json) (keys : List String) : Except String Bool :=
  match j with
  | .arr _ => .error "TypeError"
  | .obj _ => .error "TypeError"
  | .str s => .ok (keys.contains s)
  | _ => .ok false

/-- Underlying string of a JSON string, `""` otherwise (only applied under a
`jsonMem` guard). -/
def jsonStr : Json → String
  | .str s => s
  | _ => ""

/- ### Daemon state: wallet registry, subscriptions, pending events -/

/-- A subscription-set element: the daemon compares set members against
`EVENT_MAPPING.get(event)`, i.e. against a string or Python `None`.
`none` is the embedding of a client having subscribed to JSON `null`. -/
abbrev Tag := Option String

/-- One record appended to a session's pending queue by `_process_events`:
`data = {"event": mapped_event}` updated with the payload dictionary the
daemon-specific hook extracted from the callback arguments. -/
structure EventData where
  event : Tag
  payload : List (String × String)
deriving DecidableEq

/-- The three per-wallet dictionaries of `BaseDaemon`.  Wallet objects are
opaque handles (`Nat`); `self.wallets[x]["wallet"]` is the handle stored for
`x` (the command runner and per-session config carried alongside play no role
in the properties below).  `wallets_config[x]` is the session's
`{"events": ...}` subscription set, `wallets_updates[x]` its pending queue.
The `self.daemon.wallets` path-keyed map is outside the modelled state. -/
structure DaemonState where
  wallets : List (String × Nat)
  wallets_config : List (String × List Tag)
  wallets_updates : List (String × List EventData)
deriving DecidableEq

/-- Python `set.update(new)`: adds each element not already present. -/
def setUpdate (cur new : List Tag) : List Tag :=
  new.foldl (fun acc t => if t ∈ acc then acc else acc ++ [t]) cur

/-- Dictionary write `self.wallets_config[w] = evs` lifted to the state. -/
def withConfig (st : DaemonState) (w : String) (evs : List Tag) : DaemonState :=
  { st with wallets_config := insertD st.wallets_config w evs }

/-- Dictionary write `self.wallets_updates[w] = q` lifted to the state. -/
def withUpdates (st : DaemonState) (w : String) (q : List EventData) : DaemonState :=
  { st with wallets_updates := insertD st.wallets_updates w q }

/-- Conversion of one JSON value sent by a client into a subscription-set
element.  Only strings and `null` are modelled; other element types are
rejected (they would be inert set members in Python, never matching any
mapped event). -/
def jsonToTag : Json → Option Tag
  | .null => some none
  | .str s => some (some s)
  | _ => none

/-- Conversion of a client-supplied JSON array of event tags. -/
def jsonToTagList : List Json → Option (List Tag)
  | [] => some []
  | j :: rest =>
    match jsonToTag j, jsonToTagList rest with
    | some t, some ts => some (t :: ts)
    | _, _ => none

/-- A JSON `events` argument as an iterable of tags; non-array iterables
(Python would also iterate strings or dict keys) are not modelled. -/
def jsonToTags : Json → Option (List Tag)
  | .arr xs => jsonToTagList xs
  | _ => none

/-- The wallet keyword argument bound by the dispatcher is the raw `xpub`
JSON value; only a string can hit a registry key.  Returns the key and the
stored value, or `none` for the `KeyError` case. -/
def walletEntry {α : Type} (m : List (String × α)) (wallet : Json) : Option (String × α) :=
  match wallet with
  | .str w =>
    match alookup m w with
    | some v => some (w, v)
    | none => none
  | _ => none

/-- `BaseDaemon.get_updates`: reads the session's queue (a `KeyError` for an
unregistered wallet), then rebinds it to `[]` and returns the drained list. -/
def get_updates (st : DaemonState) (wallet : Json) : Except String (List EventData × DaemonState) :=
  match walletEntry st.wallets_updates wallet with
  | none => .error "KeyError"
  | some (w, updates) =>
    .ok (updates, { st with wallets_updates := insertD st.wallets_updates w [] })

/-- `BaseDaemon.subscribe`: `self.wallets_config[wallet]["events"].update(events)`.
The subscription-set lookup raises `KeyError` before the argument is
iterated. -/
def subscribe (st : DaemonState) (events : Json) (wallet : Json) : Except String DaemonState :=
  match walletEntry st.wallets_config wallet with
  | none => .error "KeyError"
  | some (w, cur) =>
    match jsonToTags events with
    | none => .error "TypeError"
    | some evs =>
      .ok { st with wallets_config := insertD st.wallets_config w (setUpdate cur evs) }

/-- `BaseDaemon.unsubscribe`: with `events=None` the removal list is
`self.EVENT_MAPPING.keys()` (the raw event kinds, not the mapped public
tags); the session's set is rebuilt keeping the tags not in that list. -/
def unsubscribe (st : DaemonState) (mapping : List (String × String))
    (events : Option Json) (wallet : Json) : Except String DaemonState :=
  let evsOpt : Option (List Tag) :=
    match events with
    | none => some (mapping.map (fun p => (some p.1 : Tag)))
    | some j => jsonToTags j
  match walletEntry st.wallets_config wallet with
  | none => .error "KeyError"
  | some (w, cur) =>
    match evsOpt with
    | none => .error "TypeError"
    | some evs =>
      .ok { st with wallets_config :=
              insertD st.wallets_config w (cur.filter (fun t => decide (t ∉ evs))) }

/- ### Event bus adapter: `_process_events` -/

/-- The fan-out loop of `_process_events`:
`for i in self.wallets_config: if mapped_event in ...events: if not wallet
or wallet == self.wallets[i]["wallet"]: self.wallets_updates[i].append(data)`.
The Boolean result records whether a `KeyError` aborted the loop (appends
made before the abort persist, as in Python). -/
def deliverLoop (wallets : List (String × Nat)) (mapped : Tag) (wallet : Option Nat)
    (data : EventData) :
    List (String × List Tag) → List (String × List EventData) →
    List (String × List EventData) × Bool
  | [], upd => (upd, false)
  | (i, evs) :: rest, upd =>
    if mapped ∈ evs then
      match wallet with
      | none =>
        match alookup upd i with
        | some q => deliverLoop wallets mapped wallet data rest (insertD upd i (q ++ [data]))
        | none => (upd, true)
      | some w =>
        match alookup wallets i with
        | none => (upd, true)
        | some wi =>
          if w = wi then
            match alookup upd i with
            | some q => deliverLoop wallets mapped wallet data rest (insertD upd i (q ++ [data]))
            | none => (upd, true)
          else
            deliverLoop wallets mapped wallet data rest upd
    else
      deliverLoop wallets mapped wallet data rest upd

/-- `BaseDaemon._process_events(event, *args)`.  `EVENT_MAPPING.get(event)`
maps the raw kind (to `None` when unmapped — there is no early drop), then
the daemon-specific hook `process_events(mapped_event, *args)` runs; its
outcome is passed in as `hook` applied to the mapped tag: `Except.error`
embeds a raising hook (event dropped), `.ok none` a `None` payload (event
dropped), `.ok (some (payload, wallet))` a payload dictionary and optional
origin-wallet handle.  The Boolean records a `KeyError` escaping the loop. -/
def processEventsCallback (st : DaemonState) (mapping : List (String × String))
    (kind : String)
    (hook : Tag → Except String (Option (List (String × String) × Option Nat))) :
    DaemonState × Bool :=
  let mapped : Tag := alookup mapping kind
  match hook mapped with
  | .error _ => (st, false)
  | .ok none => (st, false)
  | .ok (some (payload, wallet)) =>
    let data : EventData := ⟨mapped, payload⟩
    let r := deliverLoop st.wallets mapped wallet data st.wallets_config st.wallets_updates
    ({ st with wallets_updates := r.1 }, r.2)

/- ### Wallet session registry: `load_wallet` -/

/-- Outcome of the external restore/open/sync work done by `load_wallet` for
a wallet that is not yet registered: either a freshly constructed wallet
object (an opaque handle) or an exception from the wallet library. -/
inductive LoadOutcome where
  | ok (w : Nat)
  | err
deriving DecidableEq

/-- `BaseDaemon.load_wallet(xpub)` with the awaited restore/sync section
taken as one atomic step whose outcome is `io` (the interleaved, suspending
version is `raceStep` below).  An already registered `xpub` returns the
stored wallet with no state change; a falsy `xpub` returns a session-less
context; otherwise the wallet is restored/opened and registered with an
empty subscription set and an empty pending queue.  Unhashable `xpub`
values raise on the membership test, truthy non-string ones inside the
path arithmetic. -/
def load_wallet (st : DaemonState) (xpub : Json) (io : LoadOutcome) :
    Except String (Option Nat × DaemonState) :=
  match xpub with
  | .arr _ => .error "TypeError"
  | .obj _ => .error "TypeError"
  | _ =>
    match (match xpub with | .str x => alookup st.wallets x | _ => none) with
    | some w => .ok (some w, st)
    | none =>
      if jsonFalsy xpub then .ok (none, st)
      else
        match xpub with
        | .str x =>
          match io with
          | .ok w =>
            .ok (some w,
              { st with
                wallets := insertD st.wallets x w,
                wallets_config := insertD st.wallets_config x [],
                wallets_updates := insertD st.wallets_updates x [] })
          | .err => .error "Exception"
        | _ => .error "TypeError"

/- ### Request dispatcher: `handle_request` -/

/-- An inbound HTTP request as seen by `handle_request`: the
`Authorization` header, the content type, and the body (`none` embeds a
body that `request.json()` fails to parse). -/
structure Request where
  authorization : Option String
  content_type : String
  body : Option Json

/-- A JSON-RPC response produced by `web.json_response` in `handle_request`:
either `{"jsonrpc": "2.0", "error": {"code": c, "message": m}, "id": id}`
or `{"jsonrpc": "2.0", "result": r, "error": null, "id": id}`. -/
inductive RpcResponse where
  | failure (code : Int) (message : String) (id : Json)
  | success (result : Json) (id : Json)

/-- The keys of `self.base_methods`. -/
def base_method_names : List String := ["get_updates", "subscribe", "unsubscribe"]

/-- Shape check performed by `if isinstance(params, list) ... elif
isinstance(params, dict)`: any other shape leaves `result` unbound
(a `NameError` caught by the invocation `try`). -/
def bindParams : Json → Option Bool
  | .arr _ => some true
  | .obj _ => some false
  | _ => none

/-- Daemon-wide static context: configured credentials, the event-mapping
table, the method tables (daemon-custom names, command-runner attributes,
`known_commands` with their `requires_wallet` flag) and oracles giving the
outcome of invoking a daemon-custom method (which may read and update the
daemon state) or a wallet-library command. -/
structure DaemonCtx where
  LOGIN : String
  PASSWORD : String
  EVENT_MAPPING : List (String × String)
  supported : List String
  cmdAttrs : List String
  knownCommands : List (String × Bool)
  customExec : String → Json → Json → DaemonState → DaemonState × Except String Json
  libExec : String → Json → Option Nat → Except String Json

/-- JSON serialisation of a drained pending queue, as `web.json_response`
renders the list returned by `get_updates`. -/
def encodeUpdates (q : List EventData) : Json :=
  .arr (q.map (fun d =>
    .obj (d.payload.foldl (fun acc kv => insertD acc kv.1 (.str kv.2))
      [("event", match d.event with | none => .null | some s => .str s)])))

/-- Invocation of one of the three built-in methods with the keyword
binding `wallet=xpub` made by the dispatcher and the call-time splat of
`params`: wrong arities raise `TypeError` before the method body runs,
non-list/dict params leave `result` unbound.  All failures happen before
any state mutation. -/
def call_builtin (st : DaemonState) (mapping : List (String × String))
    (name : String) (params : Json) (xpub : Json) :
    Except String (Json × DaemonState) :=
  if name = "get_updates" then
    match params with
    | .arr args =>
      if args.isEmpty then
        match get_updates st xpub with
        | .ok (q, st1) => .ok (encodeUpdates q, st1)
        | .error e => .error e
      else .error "TypeError"
    | .obj kw =>
      if kw.isEmpty then
        match get_updates st xpub with
        | .ok (q, st1) => .ok (encodeUpdates q, st1)
        | .error e => .error e
      else .error "TypeError"
    | _ => .error "NameError"
  else if name = "subscribe" then
    match params with
    | .arr args =>
      match args with
      | [e] =>
        match subscribe st e xpub with
        | .ok st1 => .ok (.null, st1)
        | .error err => .error err
      | _ => .error "TypeError"
    | .obj kw =>
      match kw with
      | [(k, e)] =>
        if k = "events" then
          match subscribe st e xpub with
          | .ok st1 => .ok (.null, st1)
          | .error err => .error err
        else .error "TypeError"
      | _ => .error "TypeError"
    | _ => .error "NameError"
  else if name = "unsubscribe" then
    match params with
    | .arr args =>
      match args with
      | [] =>
        match unsubscribe st mapping none xpub with
        | .ok st1 => .ok (.null, st1)
        | .error err => .error err
      | [e] =>
        match unsubscribe st mapping (some e) xpub with
        | .ok st1 => .ok (.null, st1)
        | .error err => .error err
      | _ => .error "TypeError"
    | .obj kw =>
      match kw with
      | [] =>
        match unsubscribe st mapping none xpub with
        | .ok st1 => .ok (.null, st1)
        | .error err => .error err
      | [(k, e)] =>
        if k = "events" then
          match unsubscribe st mapping (some e) xpub with
          | .ok st1 => .ok (.null, st1)
          | .error err => .error err
        else .error "TypeError"
      | _ => .error "TypeError"
    | _ => .error "NameError"
  else .error "KeyError"

/-- Tier resolution and invocation (`handle_request` lines after the
`load_wallet` try): built-in tier first, then daemon-custom, then the
command-runner attribute lookup with `known_commands` metadata.  `cmdBound`
records whether the `wallet, cmd, config` assignment succeeded; the
library-tier branches reached with it unset, and a `getattr` on a non-string
method name, re-raise (the source catches only `AttributeError` there).
Exceptions inside the invocation `try` yield a `-32601` failure whose
message is the last traceback line, embedded as the exception tag. -/
def dispatch_method (D : DaemonCtx) (st : DaemonState) (method id xpub params : Json)
    (wallet : Option Nat) (cmdBound : Bool) :
    Except String (RpcResponse × DaemonState) :=
  if jsonMem method base_method_names then
    match call_builtin st D.EVENT_MAPPING (jsonStr method) params xpub with
    | .ok (r, st') => .ok (.success r id, st')
    | .error e => .ok (.failure (-32601) e id, st)
  else if jsonMem method D.supported then
    match bindParams params with
    | none => .ok (.failure (-32601) "NameError" id, st)
    | some _ =>
      match D.customExec (jsonStr method) xpub params st with
      | (st', .ok v) => .ok (.success v id, st')
      | (st', .error e) => .ok (.failure (-32601) e id, st')
  else
    match method with
    | .str mname =>
      if cmdBound then
        if mname ∈ D.cmdAttrs then
          match alookup D.knownCommands mname with
          | none => .ok (.failure (-32601) "KeyError" id, st)
          | some reqw =>
            match bindParams params with
            | none => .ok (.failure (-32601) "NameError" id, st)
            | some _ =>
              match D.libExec mname params (if reqw then wallet else none) with
              | .ok v => .ok (.success v id, st)
              | .error e => .ok (.failure (-32601) e id, st)
        else .ok (.failure (-32601) "Procedure not found." id, st)
      else .error "NameError"
    | _ => .error "TypeError"

/-- `BaseDaemon.handle_request(request)`.  An `Except.error` is an exception
escaping the handler (aiohttp then answers with a non-200 status); `.ok`
is the HTTP-200 `web.json_response` value together with the daemon state
after the call.  Escape points: `decode_auth` (outside any `try`),
`request.json()` on an unparsable body, `.get` on a non-object body, the
`method in self.supported_methods` membership test inside the `except`
clause for an unhashable method value (the new `TypeError` propagates out
of the handler), and the `getattr(cmd, method)` re-raises listed in
`dispatch_method`. -/
def handle_request (D : DaemonCtx) (io : LoadOutcome) (st : DaemonState)
    (req : Request) : Except String (RpcResponse × DaemonState) :=
  match decode_auth req.authorization with
  | .error e => .error e
  | .ok (user, password) =>
    if ¬(user = some D.LOGIN ∧ password = some D.PASSWORD) then
      .ok (.failure (-32600) "Unauthorized" .null, st)
    else if req.content_type = "application/json" then
      match req.body with
      | none => .error "json.JSONDecodeError"
      | some (.obj fields) =>
        let method := pyGetD fields "method" .null
        let id := pyGetD fields "id" .null
        let xpub := pyGetD fields "xpub" .null
        let params := pyGetD fields "params" (.arr [])
        if jsonFalsy method then
          .ok (.failure (-32601) "Procedure not found." id, st)
        else
          match load_wallet st xpub io with
          | .error _ =>
            -- `if not method in self.supported_methods and not method in
            -- self.base_methods:` — the first membership test raises for an
            -- unhashable method value (escaping the handler), and the `and`
            -- short-circuits when the method is a supported one
            match jsonMemH method D.supported with
            | .error e => .error e
            | .ok insup =>
              if insup then
                dispatch_method D st method id xpub params none false
              else
                match jsonMemH method base_method_names with
                | .error e => .error e
                | .ok inbase =>
                  if inbase then
                    dispatch_method D st method id xpub params none false
                  else
                    .ok (.failure (-32601) "Error loading wallet" id, st)
          | .ok (wallet, st1) =>
            dispatch_method D st1 method id xpub params wallet true
      | some _ => .error "AttributeError"
    else
      .ok (.failure (-32600) "Invalid JSON-RPC." .null, st)

/- ### Interleaved sessions: the suspension structure of `load_wallet` -/

/-- Where one `load_wallet(xpub)` call stands: `start` is before the
`xpub in self.wallets` membership test; `syncing` is inside the awaited
restore / `while not wallet.is_up_to_date(): await asyncio.sleep(0.1)`
region, which is entered only after the membership test saw the key
absent; `finished` carries the returned wallet handle (or `none` for the
session-less context). -/
inductive LoadPhase where
  | start
  | syncing
  | finished (res : Option Nat)
deriving DecidableEq

/-- One cooperative `load_wallet` task. -/
structure LoadTask where
  xpub : String
  phase : LoadPhase
deriving DecidableEq

/-- Daemon state together with the number of wallet objects constructed so
far and the in-flight `load_wallet` tasks. -/
structure RaceState where
  st : DaemonState
  created : Nat
  tasks : List LoadTask
deriving DecidableEq

/-- Runs task `i` up to its next suspension point, as the event loop does:
from `start`, a registered identifier finishes immediately with the stored
handle, a falsy one with no session, and an unseen one enters the awaited
restore/sync region; from `syncing`, the task constructs a fresh wallet
object and registers the session (`self.wallets[xpub] = ...` and the two
companion maps). -/
def raceStep (rs : RaceState) (i : Nat) : RaceState :=
  match rs.tasks[i]? with
  | none => rs
  | some t =>
    match t.phase with
    | .start =>
      match alookup rs.st.wallets t.xpub with
      | some w => { rs with tasks := rs.tasks.set i { t with phase := .finished (some w) } }
      | none =>
        if t.xpub.isEmpty then
          { rs with tasks := rs.tasks.set i { t with phase := .finished none } }
        else
          { rs with tasks := rs.tasks.set i { t with phase := .syncing } }
    | .syncing =>
      let w := rs.created
      { st :=
          { wallets := insertD rs.st.wallets t.xpub w,
            wallets_config := insertD rs.st.wallets_config t.xpub [],
            wallets_updates := insertD rs.st.wallets_updates t.xpub [] },
        created := rs.created + 1,
        tasks := rs.tasks.set i { t with phase := .finished (some w) } }
    | .finished _ => rs

/-- Interleaves the given tasks according to a schedule of task indices. -/
def runSchedule (rs : RaceState) (sched : List Nat) : RaceState :=
  sched.foldl raceStep rs

/-- A concrete daemon context with the stock credentials, used to exercise
the dispatcher on closed inputs. -/
def sampleCtx : DaemonCtx :=
  { LOGIN := "electrum", PASSWORD := "electrumz", EVENT_MAPPING := [("raw", "tag")],
    supported := ["validateaddress"], cmdAttrs := ["getbalance"],
    knownCommands := [("getbalance", true)],
    customExec := fun _ _ _ st => (st, .ok .null),
    libExec := fun _ _ _ => .ok .null }

/-- A variant of `sampleCtx` whose credentials are `a` / `b` (matching the
header `Basic YTpi`). -/
def sampleCtxAB : DaemonCtx :=
  { LOGIN := "a", PASSWORD := "b", EVENT_MAPPING := [("raw", "tag")],
    supported := ["validateaddress"], cmdAttrs := ["getbalance"],
    knownCommands := [("getbalance", true)],
    customExec := fun _ _ _ st => (st, .ok .null),
    libExec := fun _ _ _ => .ok .null }

/- ### Library of facts about the embedded dictionaries -/

@[simp] theorem alookup_nil {α : Type} (x : String) : alookup ([] : List (String × α)) x = none := rfl

@[simp] theorem alookup_cons {α : Type} (k x : String) (v : α) (rest : List (String × α)) :
    alookup ((k, v) :: rest) x = if k = x then some v else alookup rest x := rfl

theorem alookup_insertD_self {α : Type} (m : List (String × α)) (k : String) (v : α) :
    alookup (insertD m k v) k = some v := by
  induction m with
  | nil => simp [insertD]
  | cons p rest ih =>
    obtain ⟨k', v'⟩ := p
    by_cases h : k' = k <;> simp [insertD, h, ih]

theorem alookup_insertD_ne {α : Type} (m : List (String × α)) (k x : String) (v : α)
    (h : x ≠ k) : alookup (insertD m k v) x = alookup m x := by
  induction m with
  | nil => simp [insertD, Ne.symm h]
  | cons p rest ih =>
    obtain ⟨k', v'⟩ := p
    by_cases hk : k' = k
    · subst hk
      simp [insertD, Ne.symm h]
    · by_cases hx : k' = x <;> simp [insertD, hk, hx, ih, h]

theorem insertD_insertD {α : Type} (m : List (String × α)) (k : String) (v v' : α) :
    insertD (insertD m k v) k v' = insertD m k v' := by
  induction m with
  | nil => simp [insertD]
  | cons p rest ih =>
    obtain ⟨k', w⟩ := p
    by_cases h : k' = k <;> simp [insertD, h, ih]

theorem keys_insertD {α : Type} (m : List (String × α)) (k : String) (v : α) :
    (insertD m k v).map Prod.fst =
      if k ∈ m.map Prod.fst then m.map Prod.fst else m.map Prod.fst ++ [k] := by
  induction m with
  | nil => simp [insertD]
  | cons p rest ih =>
    obtain ⟨k', v'⟩ := p
    by_cases h : k' = k
    · subst h; simp [insertD]
    · simp only [insertD, if_neg h, List.map_cons, ih]
      by_cases hm : k ∈ rest.map Prod.fst <;>
        simp [hm, List.mem_cons, Ne.symm h]

theorem nodup_keys_insertD {α : Type} (m : List (String × α)) (k : String) (v : α)
    (h : (m.map Prod.fst).Nodup) : ((insertD m k v).map Prod.fst).Nodup := by
  rw [keys_insertD]
  by_cases hm : k ∈ m.map Prod.fst
  · simpa [hm]
  · simp only [hm, if_false]
    exact List.Nodup.append h (List.nodup_singleton k)
      (by simpa [List.disjoint_singleton] using hm)

theorem alookup_isSome_insertD {α : Type} (m : List (String × α)) (k x : String) (v : α)
    (h : (alookup m x).isSome) : (alookup (insertD m k v) x).isSome := by
  by_cases hx : x = k
  · subst hx; simp [alookup_insertD_self]
  · rwa [alookup_insertD_ne m k x v hx]

theorem alookup_eq_none {α : Type} (m : List (String × α)) (x : String)
    (h : x ∉ m.map Prod.fst) : alookup m x = none := by
  induction m with
  | nil => rfl
  | cons p rest ih =>
    obtain ⟨k, v⟩ := p
    simp only [List.map_cons, List.mem_cons, not_or] at h
    simp [alookup_cons, Ne.symm h.1, ih h.2]

theorem setUpdate_cons (cur : List Tag) (x : Tag) (xs : List Tag) :
    setUpdate cur (x :: xs) = setUpdate (if x ∈ cur then cur else cur ++ [x]) xs := rfl

theorem mem_setUpdate (t : Tag) (new : List Tag) :
    ∀ cur, (t ∈ setUpdate cur new ↔ t ∈ cur ∨ t ∈ new) := by
  induction new with
  | nil => intro cur; simp [setUpdate]
  | cons x xs ih =>
    intro cur
    rw [setUpdate_cons, ih]
    by_cases hx : x ∈ cur
    · rw [if_pos hx]
      simp only [List.mem_cons]
      constructor
      · rintro (h | h)
        · exact Or.inl h
        · exact Or.inr (Or.inr h)
      · rintro (h | h | h)
        · exact Or.inl h
        · exact Or.inl (h ▸ hx)
        · exact Or.inr h
    · rw [if_neg hx]
      simp only [List.mem_append, List.mem_singleton, List.mem_cons]
      tauto

theorem deliverLoop_cons_skip (wallets : List (String × Nat)) (mapped : Tag)
    (w : Option Nat) (d : EventData) (j : String) (evsj : List Tag)
    (rest : List (String × List Tag)) (upd : List (String × List EventData))
    (hm : mapped ∉ evsj) :
    deliverLoop wallets mapped w d ((j, evsj) :: rest) upd =
      deliverLoop wallets mapped w d rest upd := by
  simp only [deliverLoop, if_neg hm]

theorem deliverLoop_cons_none (wallets : List (String × Nat)) (mapped : Tag)
    (d : EventData) (j : String) (evsj : List Tag)
    (rest : List (String × List Tag)) (upd : List (String × List EventData))
    (q0 : List EventData) (hm : mapped ∈ evsj) (hq : alookup upd j = some q0) :
    deliverLoop wallets mapped none d ((j, evsj) :: rest) upd =
      deliverLoop wallets mapped none d rest (insertD upd j (q0 ++ [d])) := by
  simp only [deliverLoop, if_pos hm, hq]

theorem deliverLoop_cons_hit (wallets : List (String × Nat)) (mapped : Tag)
    (x : Nat) (d : EventData) (j : String) (evsj : List Tag)
    (rest : List (String × List Tag)) (upd : List (String × List EventData))
    (q0 : List EventData) (wj : Nat)
    (hm : mapped ∈ evsj) (hw : alookup wallets j = some wj) (hx : x = wj)
    (hq : alookup upd j = some q0) :
    deliverLoop wallets mapped (some x) d ((j, evsj) :: rest) upd =
      deliverLoop wallets mapped (some x) d rest (insertD upd j (q0 ++ [d])) := by
  simp only [deliverLoop, if_pos hm, hw, hq, if_pos hx]

theorem deliverLoop_cons_miss (wallets : List (String × Nat)) (mapped : Tag)
    (x : Nat) (d : EventData) (j : String) (evsj : List Tag)
    (rest : List (String × List Tag)) (upd : List (String × List EventData))
    (wj : Nat)
    (hm : mapped ∈ evsj) (hw : alookup wallets j = some wj) (hx : ¬x = wj) :
    deliverLoop wallets mapped (some x) d ((j, evsj) :: rest) upd =
      deliverLoop wallets mapped (some x) d rest upd := by
  simp only [deliverLoop, if_pos hm, hw, if_neg hx]

/-- The fan-out loop never raises on a registry whose wallet and queue maps
cover every session of the subscription map, and it delivers the record to
exactly the sessions whose subscription set contains the mapped tag and
whose wallet handle matches the event's origin wallet (every subscribed
session when the event has no origin wallet). -/
theorem deliverLoop_spec (wallets : List (String × Nat)) (mapped : Tag) (w : Option Nat)
    (d : EventData) :
    ∀ (cfg : List (String × List Tag)) (upd : List (String × List EventData)),
    (∀ p ∈ cfg, (alookup wallets p.1).isSome ∧ (alookup upd p.1).isSome) →
    (cfg.map Prod.fst).Nodup →
    (deliverLoop wallets mapped w d cfg upd).2 = false ∧
    (∀ i, alookup cfg i = none →
      alookup (deliverLoop wallets mapped w d cfg upd).1 i = alookup upd i) ∧
    (∀ i evs q, alookup cfg i = some evs → alookup upd i = some q →
      alookup (deliverLoop wallets mapped w d cfg upd).1 i =
        some (if mapped ∈ evs ∧ (w = none ∨ alookup wallets i = w) then q ++ [d] else q)) := by
  intro cfg
  induction cfg with
  | nil =>
    intro upd _ _
    exact ⟨rfl, fun i _ => rfl, fun i evs q h _ => by simp at h⟩
  | cons p rest ih =>
    obtain ⟨j, evsj⟩ := p
    intro upd hcons hnd
    obtain ⟨hwj, huj⟩ := hcons (j, evsj) (List.mem_cons_self _ _)
    have hrest : ∀ p ∈ rest, (alookup wallets p.1).isSome ∧ (alookup upd p.1).isSome :=
      fun p hp => hcons p (List.mem_cons_of_mem _ hp)
    simp only [List.map_cons, List.nodup_cons] at hnd
    obtain ⟨hjni, hndr⟩ := hnd
    have hrestnone : alookup rest j = none := alookup_eq_none rest j hjni
    have skipCase :
        deliverLoop wallets mapped w d ((j, evsj) :: rest) upd =
          deliverLoop wallets mapped w d rest upd →
        ¬(mapped ∈ evsj ∧ (w = none ∨ alookup wallets j = w)) →
        (deliverLoop wallets mapped w d ((j, evsj) :: rest) upd).2 = false ∧
        (∀ i, alookup ((j, evsj) :: rest) i = none →
          alookup (deliverLoop wallets mapped w d ((j, evsj) :: rest) upd).1 i = alookup upd i) ∧
        (∀ i evs q, alookup ((j, evsj) :: rest) i = some evs → alookup upd i = some q →
          alookup (deliverLoop wallets mapped w d ((j, evsj) :: rest) upd).1 i =
            some (if mapped ∈ evs ∧ (w = none ∨ alookup wallets i = w) then q ++ [d] else q)) := by
      intro hstep hcondf
      obtain ⟨ihF, ihN, ihS⟩ := ih upd hrest hndr
      refine ⟨by rw [hstep]; exact ihF, ?_, ?_⟩
      · intro i hi
        rw [alookup_cons] at hi
        by_cases hji : j = i
        · rw [if_pos hji] at hi; exact Option.noConfusion hi
        · rw [if_neg hji] at hi
          rw [hstep]; exact ihN i hi
      · intro i evs q hevs hq
        rw [alookup_cons] at hevs
        by_cases hji : j = i
        · subst hji
          rw [if_pos rfl] at hevs
          obtain rfl : evsj = evs := Option.some.inj hevs
          rw [hstep, ihN j hrestnone, hq, if_neg hcondf]
        · rw [if_neg hji] at hevs
          rw [hstep]; exact ihS i evs q hevs hq
    have appendCase : ∀ q0, alookup upd j = some q0 →
        deliverLoop wallets mapped w d ((j, evsj) :: rest) upd =
          deliverLoop wallets mapped w d rest (insertD upd j (q0 ++ [d])) →
        (mapped ∈ evsj ∧ (w = none ∨ alookup wallets j = w)) →
        (deliverLoop wallets mapped w d ((j, evsj) :: rest) upd).2 = false ∧
        (∀ i, alookup ((j, evsj) :: rest) i = none →
          alookup (deliverLoop wallets mapped w d ((j, evsj) :: rest) upd).1 i = alookup upd i) ∧
        (∀ i evs q, alookup ((j, evsj) :: rest) i = some evs → alookup upd i = some q →
          alookup (deliverLoop wallets mapped w d ((j, evsj) :: rest) upd).1 i =
            some (if mapped ∈ evs ∧ (w = none ∨ alookup wallets i = w) then q ++ [d] else q)) := by
      intro q0 hq0 hstep hcond
      have hcons' : ∀ p ∈ rest,
          (alookup wallets p.1).isSome ∧ (alookup (insertD upd j (q0 ++ [d])) p.1).isSome :=
        fun p hp => ⟨(hrest p hp).1, alookup_isSome_insertD _ _ _ _ (hrest p hp).2⟩
      obtain ⟨ihF, ihN, ihS⟩ := ih (insertD upd j (q0 ++ [d])) hcons' hndr
      refine ⟨by rw [hstep]; exact ihF, ?_, ?_⟩
      · intro i hi
        rw [alookup_cons] at hi
        by_cases hji : j = i
        · rw [if_pos hji] at hi; exact Option.noConfusion hi
        · rw [if_neg hji] at hi
          rw [hstep, ihN i hi, alookup_insertD_ne upd j i _ (fun hh => hji hh.symm)]
      · intro i evs q hevs hq
        rw [alookup_cons] at hevs
        by_cases hji : j = i
        · subst hji
          rw [if_pos rfl] at hevs
          obtain rfl : evsj = evs := Option.some.inj hevs
          have hqq : q = q0 := by
            rw [hq0] at hq; exact (Option.some.inj hq).symm
          rw [hstep, ihN j hrestnone, alookup_insertD_self, hqq, if_pos hcond]
        · rw [if_neg hji] at hevs
          have hq' : alookup (insertD upd j (q0 ++ [d])) i = some q := by
            rw [alookup_insertD_ne upd j i _ (fun hh => hji hh.symm)]; exact hq
          rw [hstep]; exact ihS i evs q hevs hq'
    by_cases hm : mapped ∈ evsj
    · obtain ⟨q0, hq0⟩ := Option.isSome_iff_exists.mp huj
      cases w with
      | none =>
        exact appendCase q0 hq0
          (deliverLoop_cons_none wallets mapped d j evsj rest upd q0 hm hq0)
          ⟨hm, Or.inl rfl⟩
      | some x =>
        obtain ⟨wj, hwjeq⟩ := Option.isSome_iff_exists.mp hwj
        by_cases hx : x = wj
        · exact appendCase q0 hq0
            (deliverLoop_cons_hit wallets mapped x d j evsj rest upd q0 wj hm hwjeq hx hq0)
            ⟨hm, Or.inr (by rw [hwjeq, hx])⟩
        · refine skipCase
            (deliverLoop_cons_miss wallets mapped x d j evsj rest upd wj hm hwjeq hx) ?_
          rintro ⟨-, (hc | hc)⟩
          · exact Option.noConfusion hc
          · rw [hwjeq] at hc
            exact hx (Option.some.inj hc).symm
    · exact skipCase (deliverLoop_cons_skip wallets mapped w d j evsj rest upd hm)
        (fun hc => hm hc.1)

theorem deliverLoop_no_subscriber (wallets : List (String × Nat)) (mapped : Tag)
    (w : Option Nat) (d : EventData) :
    ∀ (cfg : List (String × List Tag)) (upd : List (String × List EventData)),
    (∀ p ∈ cfg, mapped ∉ p.2) →
    deliverLoop wallets mapped w d cfg upd = (upd, false) := by
  intro cfg
  induction cfg with
  | nil => intro upd _; rfl
  | cons p rest ih =>
    obtain ⟨j, evsj⟩ := p
    intro upd hno
    rw [deliverLoop_cons_skip wallets mapped w d j evsj rest upd
      (hno (j, evsj) (List.mem_cons_self _ _))]
    exact ih upd (fun p hp => hno p (List.mem_cons_of_mem _ hp))

theorem walletEntry_none {α : Type} (m : List (String × α)) (xpub : Json)
    (hx : ∀ s, xpub = .str s → alookup m s = none) :
    walletEntry m xpub = none := by
  cases xpub with
  | str s => simp only [walletEntry]; rw [hx s rfl]
  | null => rfl
  | bool b => rfl
  | num n => rfl
  | arr xs => rfl
  | obj fs => rfl

theorem load_wallet_str_err (st : DaemonState) (x : String)
    (hreg : alookup st.wallets x = none) (hxe : x.isEmpty = false) :
    load_wallet st (.str x) .err = .error "Exception" := by
  simp only [load_wallet, hreg, jsonFalsy, hxe]
  rfl

/- ### C1: `unsubscribe` with no tags -/

/-- C1 (corrected, counterexample): the claim says `unsubscribe(w)` with no
tags leaves the subscription set empty of all known event tags.  With the
event-mapping table `raw -> tag` and wallet `w` subscribed to the mapped
public tag `tag`, `unsubscribe` with no tags removes only the table key
`raw` and returns the state unchanged: the known tag `tag` is still
subscribed. -/
theorem unsubscribe_all_keeps_mapped_tag :
    unsubscribe ⟨[("w", 0)], [("w", [some "tag"])], [("w", [])]⟩ [("raw", "tag")]
        none (.str "w") =
      .ok ⟨[("w", 0)], [("w", [some "tag"])], [("w", [])]⟩ ∧
    alookup [("raw", "tag")] "raw" = some "tag" := ⟨rfl, rfl⟩

/-- C1 (corrected, amended claim): `unsubscribe` with no tags removes from
the wallet's subscription set exactly the keys of the event-mapping table
(the raw event kinds): the new set is the old one filtered of every table
key, so no table key remains subscribed afterwards. -/
theorem unsubscribe_all_removes_mapping_keys (st : DaemonState)
    (mapping : List (String × String)) (w : String) (cur : List Tag)
    (h : alookup st.wallets_config w = some cur) :
    unsubscribe st mapping none (.str w) =
      .ok (withConfig st w
        (cur.filter (fun t => decide (t ∉ mapping.map (fun p => (some p.1 : Tag)))))) ∧
    ∀ kv ∈ mapping, (some kv.1 : Tag) ∉
      cur.filter (fun t => decide (t ∉ mapping.map (fun p => (some p.1 : Tag)))) := by
  constructor
  · simp only [unsubscribe, walletEntry, h, withConfig]
  · intro kv hkv hmem
    rw [List.mem_filter] at hmem
    exact (of_decide_eq_true hmem.2) (List.mem_map.mpr ⟨kv, hkv, rfl⟩)

theorem unsubscribe_all_removes_mapping_keys_witness :
    unsubscribe ⟨[("w", 0)], [("w", [some "raw", some "x"])], [("w", [])]⟩
        [("raw", "tag")] none (.str "w") =
      .ok ⟨[("w", 0)], [("w", [some "x"])], [("w", [])]⟩ ∧
    ∀ kv ∈ [("raw", "tag")], (some kv.1 : Tag) ∉ [(some "x" : Tag)] :=
  unsubscribe_all_removes_mapping_keys
    ⟨[("w", 0)], [("w", [some "raw", some "x"])], [("w", [])]⟩
    [("raw", "tag")] "w" [some "raw", some "x"] rfl

/- ### C4: `get_updates` drains exactly once -/

/-- C4 (confirmed): for a registered wallet, `get_updates` returns exactly
the queue's current contents and rebinds the queue to `[]`, so an immediate
second call returns the empty sequence and leaves the state fixed. -/
theorem get_updates_drains_exactly_once (st : DaemonState) (w : String)
    (q : List EventData) (hq : alookup st.wallets_updates w = some q) :
    get_updates st (.str w) = .ok (q, withUpdates st w []) ∧
    get_updates (withUpdates st w []) (.str w) = .ok ([], withUpdates st w []) := by
  constructor
  · simp only [get_updates, walletEntry, hq, withUpdates]
  · simp only [get_updates, walletEntry, alookup_insertD_self, insertD_insertD, withUpdates]

theorem get_updates_drains_exactly_once_witness :
    get_updates ⟨[("w", 0)], [("w", [some "t"])], [("w", [⟨some "t", []⟩])]⟩ (.str "w") =
      .ok ([⟨some "t", []⟩], ⟨[("w", 0)], [("w", [some "t"])], [("w", [])]⟩) ∧
    get_updates ⟨[("w", 0)], [("w", [some "t"])], [("w", [])]⟩ (.str "w") =
      .ok ([], ⟨[("w", 0)], [("w", [some "t"])], [("w", [])]⟩) :=
  get_updates_drains_exactly_once
    ⟨[("w", 0)], [("w", [some "t"])], [("w", [⟨some "t", []⟩])]⟩ "w" [⟨some "t", []⟩] rfl

/- ### C8: `subscribe` accumulates by set union -/

/-- C8 (confirmed): starting from an empty subscription set, subscribing to
the tags `a, b` and then to `b, c` leaves the wallet's subscription set
with exactly the members `a`, `b`, `c`. -/
theorem subscribe_accumulates_union (st : DaemonState) (w a b c : String)
    (h : alookup st.wallets_config w = some []) :
    subscribe st (.arr [.str a, .str b]) (.str w) =
      .ok (withConfig st w (setUpdate [] [some a, some b])) ∧
    subscribe (withConfig st w (setUpdate [] [some a, some b]))
        (.arr [.str b, .str c]) (.str w) =
      .ok (withConfig st w (setUpdate (setUpdate [] [some a, some b]) [some b, some c])) ∧
    ∀ t : Tag, t ∈ setUpdate (setUpdate [] [some a, some b]) [some b, some c] ↔
      (t = some a ∨ t = some b ∨ t = some c) := by
  refine ⟨?_, ?_, ?_⟩
  · simp only [subscribe, walletEntry, h, jsonToTags, jsonToTagList, jsonToTag, withConfig]
  · simp only [subscribe, walletEntry, alookup_insertD_self, jsonToTags, jsonToTagList,
      jsonToTag, insertD_insertD, withConfig]
  · intro t
    rw [mem_setUpdate, mem_setUpdate]
    simp only [List.mem_cons, List.not_mem_nil, List.mem_singleton]
    constructor
    · rintro ((h | h | h | h) | h | h | h) <;> tauto
    · rintro (h | h | h) <;> tauto

theorem subscribe_accumulates_union_witness :
    subscribe ⟨[("w", 0)], [("w", [])], [("w", [])]⟩ (.arr [.str "A", .str "B"]) (.str "w") =
      .ok ⟨[("w", 0)], [("w", [some "A", some "B"])], [("w", [])]⟩ ∧
    subscribe ⟨[("w", 0)], [("w", [some "A", some "B"])], [("w", [])]⟩
        (.arr [.str "B", .str "C"]) (.str "w") =
      .ok ⟨[("w", 0)], [("w", [some "A", some "B", some "C"])], [("w", [])]⟩ ∧
    ∀ t : Tag, t ∈ [(some "A" : Tag), some "B", some "C"] ↔
      (t = some "A" ∨ t = some "B" ∨ t = some "C") :=
  subscribe_accumulates_union ⟨[("w", 0)], [("w", [])], [("w", [])]⟩ "w" "A" "B" "C" rfl

/- ### C5: events of unmapped kind -/

/-- C5 (corrected, counterexample): the claim says an event whose raw kind
has no entry in the event-mapping table modifies no pending queue for every
subscription configuration.  But `_process_events` performs no early drop:
it passes the unmapped (`None`) tag to the daemon hook, and if the hook
yields a payload while some session has subscribed to JSON `null`, the
record is delivered.  Here kind `other` is unmapped (first conjunct) yet
`w`'s queue receives the record. -/
theorem unmapped_event_delivered_to_null_subscriber :
    alookup [("raw", "tag")] "other" = none ∧
    processEventsCallback ⟨[("w", 0)], [("w", [none])], [("w", [])]⟩ [("raw", "tag")]
        "other" (fun _ => .ok (some ([], none))) =
      (⟨[("w", 0)], [("w", [none])], [("w", [⟨none, []⟩])]⟩, false) := ⟨rfl, rfl⟩

/-- C5 (corrected, amended claim): an event of unmapped kind modifies no
session's queue provided no subscription set contains the null tag — in
particular whenever clients only ever subscribe to real (string) tags —
whatever the daemon hook does; the drop is not performed at the mapping
step itself. -/
theorem unmapped_event_dropped_without_null_subscription
    (st : DaemonState) (mapping : List (String × String)) (kind : String)
    (hook : Tag → Except String (Option (List (String × String) × Option Nat)))
    (hkind : alookup mapping kind = none)
    (hnonull : ∀ p ∈ st.wallets_config, (none : Tag) ∉ p.2) :
    processEventsCallback st mapping kind hook = (st, false) := by
  simp only [processEventsCallback, hkind]
  cases hr : hook none with
  | error e => rfl
  | ok v =>
    cases v with
    | none => rfl
    | some pw =>
      obtain ⟨payload, wallet⟩ := pw
      dsimp only
      rw [deliverLoop_no_subscriber st.wallets none wallet ⟨none, payload⟩
        st.wallets_config st.wallets_updates hnonull]

theorem unmapped_event_dropped_without_null_subscription_witness :
    processEventsCallback ⟨[("w", 0)], [("w", [some "tag"])], [("w", [])]⟩
        [("raw", "tag")] "other" (fun _ => .ok (some ([], none))) =
      (⟨[("w", 0)], [("w", [some "tag"])], [("w", [])]⟩, false) :=
  unmapped_event_dropped_without_null_subscription
    ⟨[("w", 0)], [("w", [some "tag"])], [("w", [])]⟩ [("raw", "tag")] "other"
    (fun _ => .ok (some ([], none))) rfl (by decide)

/- ### C3: origin-wallet filtering of event delivery -/

/-- C3 (confirmed): for an event whose kind maps to tag `K`, carrying origin
wallet `h1` (the handle registered for session `w1`), delivery appends the
record to `w1`'s queue iff `w1` is subscribed to `K`, never touches `w2`'s
queue (its handle differs), and an event with no origin wallet is appended
to every registered session subscribed to `K`. -/
theorem process_events_origin_filtering
    (st : DaemonState) (mapping : List (String × String)) (kind K : String)
    (w1 w2 : String) (h1 h2 : Nat) (evs1 evs2 : List Tag) (q1 q2 : List EventData)
    (payload : List (String × String))
    (hmap : alookup mapping kind = some K)
    (hw1 : alookup st.wallets w1 = some h1) (hw2 : alookup st.wallets w2 = some h2)
    (hc1 : alookup st.wallets_config w1 = some evs1)
    (hc2 : alookup st.wallets_config w2 = some evs2)
    (hq1 : alookup st.wallets_updates w1 = some q1)
    (hq2 : alookup st.wallets_updates w2 = some q2)
    (hneH : h1 ≠ h2)
    (hcons : ∀ p ∈ st.wallets_config,
      (alookup st.wallets p.1).isSome ∧ (alookup st.wallets_updates p.1).isSome)
    (hnd : (st.wallets_config.map Prod.fst).Nodup) :
    alookup (processEventsCallback st mapping kind
        (fun _ => .ok (some (payload, some h1)))).1.wallets_updates w1 =
      some (if (some K : Tag) ∈ evs1 then q1 ++ [⟨some K, payload⟩] else q1) ∧
    alookup (processEventsCallback st mapping kind
        (fun _ => .ok (some (payload, some h1)))).1.wallets_updates w2 = some q2 ∧
    (∀ i evsi qi, alookup st.wallets_config i = some evsi →
      alookup st.wallets_updates i = some qi →
      alookup (processEventsCallback st mapping kind
          (fun _ => .ok (some (payload, none)))).1.wallets_updates i =
        some (if (some K : Tag) ∈ evsi then qi ++ [⟨some K, payload⟩] else qi)) := by
  obtain ⟨hF, hN, hS⟩ := deliverLoop_spec st.wallets (some K) (some h1) ⟨some K, payload⟩
    st.wallets_config st.wallets_updates hcons hnd
  obtain ⟨hF0, hN0, hS0⟩ := deliverLoop_spec st.wallets (some K) none ⟨some K, payload⟩
    st.wallets_config st.wallets_updates hcons hnd
  simp only [processEventsCallback, hmap]
  refine ⟨?_, ?_, ?_⟩
  · have hiff : ((some K : Tag) ∈ evs1 ∧
        ((some h1 : Option Nat) = none ∨ alookup st.wallets w1 = some h1)) ↔
        (some K : Tag) ∈ evs1 :=
      ⟨fun hc => hc.1, fun hm => ⟨hm, Or.inr hw1⟩⟩
    rw [hS w1 evs1 q1 hc1 hq1, if_congr hiff rfl rfl]
  · have hcond2 : ¬((some K : Tag) ∈ evs2 ∧
        ((some h1 : Option Nat) = none ∨ alookup st.wallets w2 = some h1)) := by
      rintro ⟨-, hc | hc⟩
      · exact Option.noConfusion hc
      · rw [hw2] at hc
        exact hneH (Option.some.inj hc).symm
    rw [hS w2 evs2 q2 hc2 hq2, if_neg hcond2]
  · intro i evsi qi hci hqi
    have hiff : ((some K : Tag) ∈ evsi ∧
        ((none : Option Nat) = none ∨ alookup st.wallets i = none)) ↔
        (some K : Tag) ∈ evsi :=
      ⟨fun hc => hc.1, fun hm => ⟨hm, Or.inl rfl⟩⟩
    rw [hS0 i evsi qi hci hqi, if_congr hiff rfl rfl]

theorem process_events_origin_filtering_witness :
    alookup (processEventsCallback
        ⟨[("w1", 0), ("w2", 1)], [("w1", [some "tag"]), ("w2", [some "tag"])],
          [("w1", []), ("w2", [])]⟩
        [("raw", "tag")] "raw" (fun _ => .ok (some ([], some 0)))).1.wallets_updates "w1" =
      some [⟨some "tag", []⟩] ∧
    alookup (processEventsCallback
        ⟨[("w1", 0), ("w2", 1)], [("w1", [some "tag"]), ("w2", [some "tag"])],
          [("w1", []), ("w2", [])]⟩
        [("raw", "tag")] "raw" (fun _ => .ok (some ([], some 0)))).1.wallets_updates "w2" =
      some [] ∧
    alookup (processEventsCallback
        ⟨[("w1", 0), ("w2", 1)], [("w1", [some "tag"]), ("w2", [some "tag"])],
          [("w1", []), ("w2", [])]⟩
        [("raw", "tag")] "raw" (fun _ => .ok (some ([], none)))).1.wallets_updates "w2" =
      some [⟨some "tag", []⟩] :=
  let T := process_events_origin_filtering
    ⟨[("w1", 0), ("w2", 1)], [("w1", [some "tag"]), ("w2", [some "tag"])],
      [("w1", []), ("w2", [])]⟩
    [("raw", "tag")] "raw" "tag" "w1" "w2" 0 1 [some "tag"] [some "tag"] [] [] []
    rfl rfl rfl rfl rfl rfl rfl (by decide) (by decide) (by decide)
  ⟨T.1, T.2.1, T.2.2 "w2" [some "tag"] [] rfl rfl⟩

/- ### C9: session registry uniqueness and the creation race -/

/-- C9 (corrected, counterexample): two cooperative `load_wallet` tasks for
the same unseen identifier `w`, interleaved at the awaited restore/sync
suspension point (schedule task 0, task 1, task 0, task 1), both pass the
`xpub in self.wallets` test, and each constructs and registers a session:
two wallet objects are created (`created = 2`), the second registration
overwrites the first, and task 0 ends up holding handle `0` while the
registry stores handle `1`.  This refutes the claim that any sequence of
resolutions, including concurrent ones, creates at most one session per
identifier. -/
theorem concurrent_load_creates_two_sessions :
    runSchedule ⟨⟨[], [], []⟩, 0, [⟨"w", .start⟩, ⟨"w", .start⟩]⟩ [0, 1, 0, 1] =
      ⟨⟨[("w", 1)], [("w", [])], [("w", [])]⟩, 2,
        [⟨"w", .finished (some 0)⟩, ⟨"w", .finished (some 1)⟩]⟩ := by decide

theorem raceStep_nodup (rs : RaceState) (i : Nat)
    (h : (rs.st.wallets.map Prod.fst).Nodup) :
    ((raceStep rs i).st.wallets.map Prod.fst).Nodup := by
  cases ht : rs.tasks[i]? with
  | none => simpa [raceStep, ht] using h
  | some t =>
    cases hp : t.phase with
    | start =>
      cases ha : alookup rs.st.wallets t.xpub with
      | some w => simpa [raceStep, ht, hp, ha] using h
      | none =>
        by_cases he : t.xpub.isEmpty = true <;> simpa [raceStep, ht, hp, ha, he] using h
    | syncing =>
      simp only [raceStep, ht, hp]
      exact nodup_keys_insertD _ _ _ h
    | finished res => simpa [raceStep, ht, hp] using h

theorem runSchedule_nodup (sched : List Nat) :
    ∀ rs : RaceState, (rs.st.wallets.map Prod.fst).Nodup →
      ((runSchedule rs sched).st.wallets.map Prod.fst).Nodup := by
  induction sched with
  | nil => intro rs h; exact h
  | cons i rest ih => intro rs h; exact ih (raceStep rs i) (raceStep_nodup rs i h)

theorem raceStep_registered (rs : RaceState) (i : Nat) (t : LoadTask) (w : Nat)
    (hi : rs.tasks[i]? = some t) (hph : t.phase = .start)
    (hreg : alookup rs.st.wallets t.xpub = some w) :
    raceStep rs i = { rs with tasks := rs.tasks.set i { t with phase := .finished (some w) } } := by
  simp only [raceStep, hi, hph, hreg]

/-- C9 (corrected, amended claim): the registry itself maps each identifier
to at most one stored session at any time (key uniqueness is preserved by
every interleaving), and resolving an already registered identifier
completes immediately with the stored handle and changes neither the
registry nor the subscription or queue maps nor the construction count;
but overlapping first-time resolutions of one identifier may each construct
and register a session object (the later overwriting the earlier), as the
counterexample shows. -/
theorem registry_unique_and_idempotent
    (rs : RaceState) (sched : List Nat) (i : Nat) (t : LoadTask) (w : Nat)
    (hnd : (rs.st.wallets.map Prod.fst).Nodup)
    (hi : rs.tasks[i]? = some t) (hph : t.phase = .start)
    (hreg : alookup rs.st.wallets t.xpub = some w) :
    ((runSchedule rs sched).st.wallets.map Prod.fst).Nodup ∧
    raceStep rs i = { rs with tasks := rs.tasks.set i { t with phase := .finished (some w) } } :=
  ⟨runSchedule_nodup sched rs hnd, raceStep_registered rs i t w hi hph hreg⟩

theorem registry_unique_and_idempotent_witness :
    ((runSchedule ⟨⟨[("w", 5)], [("w", [])], [("w", [])]⟩, 3, [⟨"w", .start⟩]⟩
        [0, 0]).st.wallets.map Prod.fst).Nodup ∧
    raceStep ⟨⟨[("w", 5)], [("w", [])], [("w", [])]⟩, 3, [⟨"w", .start⟩]⟩ 0 =
      ⟨⟨[("w", 5)], [("w", [])], [("w", [])]⟩, 3, [⟨"w", .finished (some 5)⟩]⟩ :=
  registry_unique_and_idempotent
    ⟨⟨[("w", 5)], [("w", [])], [("w", [])]⟩, 3, [⟨"w", .start⟩]⟩
    [0, 0] 0 ⟨"w", .start⟩ 5 (by decide) rfl rfl rfl

/- ### C7: wrong credentials -/

/-- C7 (confirmed): whenever the `Authorization` header decodes to a
user/password pair different from the configured credentials, the handler
answers `{"error": {"code": -32600, "message": "Unauthorized"}, "id": null}`
before touching the body: the response and resulting state are the same for
every content type and body. -/
theorem wrong_credentials_unauthorized (D : DaemonCtx) (io : LoadOutcome) (st : DaemonState)
    (auth : Option String) (ct : String) (body : Option Json) (u p : Option String)
    (hauth : decode_auth auth = .ok (u, p))
    (hne : ¬(u = some D.LOGIN ∧ p = some D.PASSWORD)) :
    handle_request D io st ⟨auth, ct, body⟩ =
      .ok (.failure (-32600) "Unauthorized" .null, st) := by
  simp only [handle_request, hauth, if_pos hne]

theorem wrong_credentials_unauthorized_witness :
    handle_request sampleCtx .err ⟨[], [], []⟩
        ⟨some "Basic YTpi", "text/plain", some (.obj [("method", .str "getbalance")])⟩ =
      .ok (.failure (-32600) "Unauthorized" .null, ⟨[], [], []⟩) :=
  wrong_credentials_unauthorized sampleCtx .err ⟨[], [], []⟩ (some "Basic YTpi")
    "text/plain" (some (.obj [("method", .str "getbalance")])) (some "a") (some "b")
    (by decide) (by decide)

/- ### C2: exceptions escaping the handler -/

/-- C2 (corrected, counterexample): the claim says no request can make an
exception escape the handler.  But `decode_auth` runs outside any `try`: a
malformed `Authorization` header (`Basic a` has a base64 digit count that
cannot form a quad) raises `binascii.Error` out of the handler, and with
valid credentials an `application/json` request whose body does not parse
raises out of `await request.json()`.  Both produce a non-200 transport
error, not a JSON-RPC error object. -/
theorem handle_request_malformed_auth_escapes :
    handle_request sampleCtx .err ⟨[], [], []⟩
        ⟨some "Basic a", "application/json", some (.obj [("method", .str "getbalance")])⟩ =
      .error "binascii.Error" ∧
    handle_request sampleCtxAB .err ⟨[], [], []⟩
        ⟨some "Basic YTpi", "application/json", none⟩ =
      .error "json.JSONDecodeError" := ⟨rfl, rfl⟩

/-- Every branch of tier resolution and invocation yields an HTTP-200
JSON-RPC response, provided the method name is a string and either the
`wallet, cmd, config` assignment succeeded or the method belongs to the
built-in or daemon-custom tier. -/
theorem dispatch_method_total (D : DaemonCtx) (st : DaemonState)
    (id xpub params : Json) (wallet : Option Nat) (cmdBound : Bool) (s : String)
    (h : cmdBound = true ∨ jsonMem (.str s) base_method_names = true ∨
      jsonMem (.str s) D.supported = true) :
    ∃ r st1, dispatch_method D st (.str s) id xpub params wallet cmdBound = .ok (r, st1) := by
  unfold dispatch_method
  by_cases hb : jsonMem (.str s) base_method_names = true
  · rw [if_pos hb]
    cases hcb : call_builtin st D.EVENT_MAPPING (jsonStr (.str s)) params xpub with
    | ok v =>
      obtain ⟨r, st1⟩ := v
      exact ⟨.success r id, st1, rfl⟩
    | error e => exact ⟨.failure (-32601) e id, st, rfl⟩
  · rw [if_neg hb]
    by_cases hs : jsonMem (.str s) D.supported = true
    · rw [if_pos hs]
      cases hbp : bindParams params with
      | none => exact ⟨.failure (-32601) "NameError" id, st, rfl⟩
      | some b =>
        rcases hce : D.customExec (jsonStr (.str s)) xpub params st with ⟨st1, r⟩
        cases r with
        | ok v => exact ⟨.success v id, st1, rfl⟩
        | error e => exact ⟨.failure (-32601) e id, st1, rfl⟩
    · rw [if_neg hs]
      have hcb : cmdBound = true := by
        rcases h with h | h | h
        · exact h
        · exact absurd h hb
        · exact absurd h hs
      subst hcb
      dsimp only
      rw [if_pos rfl]
      by_cases ha : s ∈ D.cmdAttrs
      · rw [if_pos ha]
        cases hk : alookup D.knownCommands s with
        | none => exact ⟨.failure (-32601) "KeyError" id, st, rfl⟩
        | some reqw =>
          cases hbp : bindParams params with
          | none => exact ⟨.failure (-32601) "NameError" id, st, rfl⟩
          | some b =>
            dsimp only
            cases hle : D.libExec s params (if reqw = true then wallet else none) with
            | ok v => exact ⟨.success v id, st, rfl⟩
            | error e => exact ⟨.failure (-32601) e id, st, rfl⟩
      · rw [if_neg ha]
        exact ⟨.failure (-32601) "Procedure not found." id, st, rfl⟩

/-- C2 (corrected, amended claim): whenever the `Authorization` header
decodes cleanly and — for `application/json` requests — the body parses as
a JSON object whose `method` value is a string or falsy, the handler
returns an HTTP-200 JSON-RPC response (an error object or a result) and no
exception escapes.  Outside these conditions the handler can raise, as the
counterexample shows. -/
theorem handle_request_total_on_wellformed_input
    (D : DaemonCtx) (io : LoadOutcome) (st : DaemonState)
    (auth : Option String) (ct : String) (body : Option Json) (u p : Option String)
    (hauth : decode_auth auth = .ok (u, p))
    (hbody : ct = "application/json" →
      ∃ fields, body = some (.obj fields) ∧
        (jsonFalsy (pyGetD fields "method" .null) = true ∨
          ∃ s, pyGetD fields "method" .null = .str s)) :
    ∃ resp st1, handle_request D io st ⟨auth, ct, body⟩ = .ok (resp, st1) := by
  simp only [handle_request, hauth]
  by_cases hcred : (u = some D.LOGIN ∧ p = some D.PASSWORD)
  · rw [if_neg (not_not_intro hcred)]
    by_cases hct : ct = "application/json"
    · rw [if_pos hct]
      obtain ⟨fields, hb, hmth⟩ := hbody hct
      rw [hb]
      dsimp only
      by_cases hf : jsonFalsy (pyGetD fields "method" .null) = true
      · rw [if_pos hf]
        exact ⟨_, _, rfl⟩
      · rw [if_neg hf]
        have hstr : ∃ s, pyGetD fields "method" .null = .str s := by
          rcases hmth with hmth | hmth
          · exact absurd hmth hf
          · exact hmth
        obtain ⟨s, hs⟩ := hstr
        cases hl : load_wallet st (pyGetD fields "xpub" .null) io with
        | error e =>
          rw [hs]
          dsimp only [jsonMemH]
          by_cases hsup : D.supported.contains s = true
          · rw [if_pos hsup]
            exact dispatch_method_total D st (pyGetD fields "id" .null)
              (pyGetD fields "xpub" .null) (pyGetD fields "params" (.arr [])) none false s
              (Or.inr (Or.inr hsup))
          · rw [if_neg hsup]
            by_cases hbase : base_method_names.contains s = true
            · rw [if_pos hbase]
              exact dispatch_method_total D st (pyGetD fields "id" .null)
                (pyGetD fields "xpub" .null) (pyGetD fields "params" (.arr [])) none false s
                (Or.inr (Or.inl hbase))
            · rw [if_neg hbase]
              exact ⟨_, _, rfl⟩
        | ok v =>
          obtain ⟨wallet, st1⟩ := v
          rw [hs]
          exact dispatch_method_total D st1 (pyGetD fields "id" .null)
            (pyGetD fields "xpub" .null) (pyGetD fields "params" (.arr [])) wallet true s
            (Or.inl rfl)
    · rw [if_neg hct]
      exact ⟨_, _, rfl⟩
  · rw [if_pos hcred]
    exact ⟨_, _, rfl⟩

theorem handle_request_total_on_wellformed_input_witness :
    ∃ resp st1, handle_request sampleCtxAB .err ⟨[], [], []⟩
        ⟨some "Basic YTpi", "application/json", some (.obj [("method", .str "ping")])⟩ =
      .ok (resp, st1) :=
  handle_request_total_on_wellformed_input sampleCtxAB .err ⟨[], [], []⟩
    (some "Basic YTpi") "application/json" (some (.obj [("method", .str "ping")]))
    (some "a") (some "b") (by decide)
    (fun _ => ⟨[("method", .str "ping")], rfl, Or.inr ⟨"ping", rfl⟩⟩)

/- ### C6: session-resolution failure and the dispatch asymmetry -/

/-- C6 (confirmed): with valid credentials and a JSON-object body naming a
method (a non-empty string) and a non-empty, unregistered wallet identifier
whose load raises, the handler answers `-32601` / `"Error loading wallet"`
when the method is recognized by neither the built-in nor the daemon-custom
tier, and otherwise proceeds to tier resolution and invocation exactly as
`dispatch_method` prescribes, the load failure notwithstanding.  (An
unhashable method value is outside this claim: there the tier-membership
test itself raises inside the `except` clause and the exception escapes.) -/
theorem load_failure_dispatch_asymmetry
    (D : DaemonCtx) (st : DaemonState) (auth : Option String)
    (fields : List (String × Json)) (x mname : String)
    (hauth : decode_auth auth = .ok (some D.LOGIN, some D.PASSWORD))
    (hmeth : pyGetD fields "method" .null = .str mname)
    (hmn : mname.isEmpty = false)
    (hx : pyGetD fields "xpub" .null = .str x)
    (hxe : x.isEmpty = false)
    (hreg : alookup st.wallets x = none) :
    ((jsonMem (pyGetD fields "method" .null) D.supported = false ∧
      jsonMem (pyGetD fields "method" .null) base_method_names = false) →
      handle_request D .err st ⟨auth, "application/json", some (.obj fields)⟩ =
        .ok (.failure (-32601) "Error loading wallet" (pyGetD fields "id" .null), st)) ∧
    ((jsonMem (pyGetD fields "method" .null) base_method_names = true ∨
      jsonMem (pyGetD fields "method" .null) D.supported = true) →
      handle_request D .err st ⟨auth, "application/json", some (.obj fields)⟩ =
        dispatch_method D st (pyGetD fields "method" .null) (pyGetD fields "id" .null)
          (pyGetD fields "xpub" .null) (pyGetD fields "params" (.arr [])) none false) := by
  have hload : load_wallet st (pyGetD fields "xpub" .null) .err = .error "Exception" := by
    rw [hx]
    exact load_wallet_str_err st x hreg hxe
  have hfal : jsonFalsy (pyGetD fields "method" .null) = false := by
    rw [hmeth]
    exact hmn
  have hprefix : ∀ next : Except String (RpcResponse × DaemonState),
      (match jsonMemH (Json.str mname) D.supported with
      | .error e => .error e
      | .ok insup =>
        if insup then
          dispatch_method D st (.str mname) (pyGetD fields "id" .null)
            (pyGetD fields "xpub" .null) (pyGetD fields "params" (.arr [])) none false
        else
          match jsonMemH (Json.str mname) base_method_names with
          | .error e => .error e
          | .ok inbase =>
            if inbase then
              dispatch_method D st (.str mname) (pyGetD fields "id" .null)
                (pyGetD fields "xpub" .null) (pyGetD fields "params" (.arr [])) none false
            else
              Except.ok (RpcResponse.failure (-32601) "Error loading wallet"
                (pyGetD fields "id" .null), st)) = next →
      handle_request D .err st ⟨auth, "application/json", some (.obj fields)⟩ = next := by
    intro next hnext
    simp only [handle_request, hauth, and_self, not_true, ite_false, ite_true]
    rw [if_neg (by rw [hfal]; exact Bool.false_ne_true), hload, hmeth]
    exact hnext
  constructor
  · rintro ⟨h1, h2⟩
    rw [hmeth] at h1 h2
    have h1a : D.supported.contains mname = false := h1
    have h2a : base_method_names.contains mname = false := h2
    refine hprefix _ ?_
    dsimp only [jsonMemH]
    rw [if_neg (by rw [h1a]; exact Bool.false_ne_true),
      if_neg (by rw [h2a]; exact Bool.false_ne_true)]
  · intro hm
    rw [hmeth] at hm
    refine hprefix _ ?_
    dsimp only [jsonMemH]
    by_cases hsup : D.supported.contains mname = true
    · rw [if_pos hsup, hmeth]
    · have hsupf : D.supported.contains mname = false := by
        rwa [Bool.not_eq_true] at hsup
      have hbase : base_method_names.contains mname = true := by
        rcases hm with hm | hm
        · exact hm
        · exact absurd hm hsup
      rw [if_neg (by rw [hsupf]; exact Bool.false_ne_true), if_pos hbase, hmeth]

theorem load_failure_dispatch_asymmetry_witness :
    handle_request sampleCtxAB .err ⟨[], [], []⟩
        ⟨some "Basic YTpi", "application/json",
          some (.obj [("method", .str "foo"), ("xpub", .str "w")])⟩ =
      .ok (.failure (-32601) "Error loading wallet" .null, ⟨[], [], []⟩) :=
  (load_failure_dispatch_asymmetry sampleCtxAB ⟨[], [], []⟩ (some "Basic YTpi")
    [("method", .str "foo"), ("xpub", .str "w")] "w" "foo"
    (by decide) rfl rfl rfl rfl rfl).1 ⟨by decide, by decide⟩

/-- An unhashable method value (here a JSON array) combined with a failing
wallet load makes `method in self.supported_methods` inside the `except`
clause raise: the `TypeError` escapes the handler (non-200) instead of
collapsing into the `Error loading wallet` response. -/
theorem load_failure_unhashable_method_escapes :
    handle_request sampleCtxAB .err ⟨[], [], []⟩
        ⟨some "Basic YTpi", "application/json",
          some (.obj [("method", .arr [.null]), ("xpub", .str "w")])⟩ =
      .error "TypeError" := rfl

/- ### C10: built-in methods with an empty/absent/unloaded wallet -/

theorem load_wallet_str_empty (st : DaemonState) (x : String) (io : LoadOutcome)
    (hreg : alookup st.wallets x = none) (hxe : x.isEmpty = true) :
    load_wallet st (.str x) io = .ok (none, st) := by
  simp only [load_wallet, hreg, jsonFalsy, hxe]
  rfl

theorem load_wallet_num_truthy (st : DaemonState) (n : Int) (io : LoadOutcome)
    (hn : (n == 0) = false) :
    load_wallet st (.num n) io = .error "TypeError" := by
  simp only [load_wallet, jsonFalsy, hn]
  rfl

/-- Invoking any of the three built-in methods bound to a wallet identifier
that is registered in none of the session maps raises (a `KeyError` on the
session lookup, or a `TypeError`/`NameError` on argument binding) before
any state is touched. -/
theorem call_builtin_fails_unregistered (st : DaemonState) (mapping : List (String × String))
    (m : String) (params xpub : Json)
    (hm : m ∈ base_method_names)
    (hx : ∀ s, xpub = .str s →
      alookup st.wallets_config s = none ∧ alookup st.wallets_updates s = none) :
    ∃ e, call_builtin st mapping m params xpub = .error e := by
  have hcfg : walletEntry st.wallets_config xpub = none :=
    walletEntry_none _ _ (fun s hs => (hx s hs).1)
  have hupd : walletEntry st.wallets_updates xpub = none :=
    walletEntry_none _ _ (fun s hs => (hx s hs).2)
  have hget : get_updates st xpub = .error "KeyError" := by
    simp only [get_updates, hupd]
  have hsub : ∀ e, subscribe st e xpub = .error "KeyError" := fun e => by
    simp only [subscribe, hcfg]
  have huns : ∀ ev, unsubscribe st mapping ev xpub = .error "KeyError" := fun ev => by
    simp only [unsubscribe, hcfg]
  simp only [base_method_names, List.mem_cons, List.not_mem_nil, or_false] at hm
  rcases hm with rfl | rfl | rfl
  · unfold call_builtin
    rw [if_pos rfl]
    cases params with
    | arr args =>
      dsimp only
      by_cases he : args.isEmpty = true
      · rw [if_pos he, hget]
        exact ⟨"KeyError", rfl⟩
      · rw [if_neg he]
        exact ⟨"TypeError", rfl⟩
    | obj kw =>
      dsimp only
      by_cases he : kw.isEmpty = true
      · rw [if_pos he, hget]
        exact ⟨"KeyError", rfl⟩
      · rw [if_neg he]
        exact ⟨"TypeError", rfl⟩
    | null => exact ⟨"NameError", rfl⟩
    | bool b => exact ⟨"NameError", rfl⟩
    | num n => exact ⟨"NameError", rfl⟩
    | str s => exact ⟨"NameError", rfl⟩
  · unfold call_builtin
    rw [if_neg (by decide), if_pos rfl]
    cases params with
    | arr args =>
      cases args with
      | nil => exact ⟨"TypeError", rfl⟩
      | cons e tail =>
        cases tail with
        | nil =>
          dsimp only
          rw [hsub e]
          exact ⟨"KeyError", rfl⟩
        | cons f tail2 => exact ⟨"TypeError", rfl⟩
    | obj kw =>
      cases kw with
      | nil => exact ⟨"TypeError", rfl⟩
      | cons p tail =>
        cases tail with
        | nil =>
          obtain ⟨k, e⟩ := p
          dsimp only
          by_cases hk : k = "events"
          · rw [if_pos hk, hsub e]
            exact ⟨"KeyError", rfl⟩
          · rw [if_neg hk]
            exact ⟨"TypeError", rfl⟩
        | cons q tail2 => exact ⟨"TypeError", rfl⟩
    | null => exact ⟨"NameError", rfl⟩
    | bool b => exact ⟨"NameError", rfl⟩
    | num n => exact ⟨"NameError", rfl⟩
    | str s => exact ⟨"NameError", rfl⟩
  · unfold call_builtin
    rw [if_neg (by decide), if_neg (by decide), if_pos rfl]
    cases params with
    | arr args =>
      cases args with
      | nil =>
        dsimp only
        rw [huns none]
        exact ⟨"KeyError", rfl⟩
      | cons e tail =>
        cases tail with
        | nil =>
          dsimp only
          rw [huns (some e)]
          exact ⟨"KeyError", rfl⟩
        | cons f tail2 => exact ⟨"TypeError", rfl⟩
    | obj kw =>
      cases kw with
      | nil =>
        dsimp only
        rw [huns none]
        exact ⟨"KeyError", rfl⟩
      | cons p tail =>
        cases tail with
        | nil =>
          obtain ⟨k, e⟩ := p
          dsimp only
          by_cases hk : k = "events"
          · rw [if_pos hk, huns (some e)]
            exact ⟨"KeyError", rfl⟩
          · rw [if_neg hk]
            exact ⟨"TypeError", rfl⟩
        | cons q tail2 => exact ⟨"TypeError", rfl⟩
    | null => exact ⟨"NameError", rfl⟩
    | bool b => exact ⟨"NameError", rfl⟩
    | num n => exact ⟨"NameError", rfl⟩
    | str s => exact ⟨"NameError", rfl⟩

/-- Common tail for C10: once the wallet resolution is known to either
raise or produce the session-less context without touching the state, any
built-in method call answers `-32601` and leaves the state unchanged. -/
theorem handle_request_builtin_keyerror
    (D : DaemonCtx) (io : LoadOutcome) (st : DaemonState)
    (auth : Option String) (fields : List (String × Json)) (m : String)
    (hauth : decode_auth auth = .ok (some D.LOGIN, some D.PASSWORD))
    (hm : pyGetD fields "method" .null = .str m)
    (hmb : m ∈ base_method_names)
    (hx : ∀ s, pyGetD fields "xpub" .null = .str s →
      alookup st.wallets_config s = none ∧ alookup st.wallets_updates s = none)
    (hload : load_wallet st (pyGetD fields "xpub" .null) io = .ok (none, st) ∨
      ∃ e0, load_wallet st (pyGetD fields "xpub" .null) io = .error e0) :
    ∃ msg, handle_request D io st ⟨auth, "application/json", some (.obj fields)⟩ =
      .ok (.failure (-32601) msg (pyGetD fields "id" .null), st) := by
  obtain ⟨e, he⟩ := call_builtin_fails_unregistered st D.EVENT_MAPPING m
    (pyGetD fields "params" (.arr [])) (pyGetD fields "xpub" .null) hmb hx
  have hmb2 := hmb
  simp only [base_method_names, List.mem_cons, List.not_mem_nil, or_false] at hmb2
  have hmem : jsonMem (.str m) base_method_names = true := by
    rcases hmb2 with rfl | rfl | rfl <;> rfl
  have hmne : jsonFalsy (.str m) = false := by
    rcases hmb2 with rfl | rfl | rfl <;> rfl
  have hdisp : ∀ (wlt : Option Nat) (cb : Bool),
      dispatch_method D st (.str m) (pyGetD fields "id" .null) (pyGetD fields "xpub" .null)
        (pyGetD fields "params" (.arr [])) wlt cb =
      .ok (.failure (-32601) e (pyGetD fields "id" .null), st) := by
    intro wlt cb
    unfold dispatch_method
    rw [if_pos hmem]
    simp only [jsonStr]
    rw [he]
  refine ⟨e, ?_⟩
  simp only [handle_request, hauth, and_self, not_true, ite_false, ite_true]
  rw [hm]
  rw [if_neg (by rw [hmne]; exact Bool.false_ne_true)]
  rcases hload with hload | ⟨e0, hload⟩
  · rw [hload]
    exact hdisp none true
  · rw [hload]
    dsimp only [jsonMemH]
    by_cases hsup : D.supported.contains m = true
    · rw [if_pos hsup]
      exact hdisp none false
    · have hsupf : D.supported.contains m = false := by
        rwa [Bool.not_eq_true] at hsup
      have hinb : base_method_names.contains m = true := hmem
      rw [if_neg (by rw [hsupf]; exact Bool.false_ne_true), if_pos hinb]
      exact hdisp none false

/-- C10 (confirmed): resolving an empty or absent wallet identifier
registers no session, so calling `get_updates`, `subscribe` or
`unsubscribe` with an empty, absent, non-string, or never-successfully-
loaded identifier makes the bound method raise a lookup failure, which the
dispatcher maps to a `-32601` error response with the state unchanged: no
registry, subscription or queue entry is created or modified. -/
theorem builtin_unloaded_wallet_errors
    (D : DaemonCtx) (io : LoadOutcome) (st : DaemonState)
    (auth : Option String) (fields : List (String × Json)) (m : String)
    (hauth : decode_auth auth = .ok (some D.LOGIN, some D.PASSWORD))
    (hm : pyGetD fields "method" .null = .str m)
    (hmb : m ∈ base_method_names)
    (hx : ∀ s, pyGetD fields "xpub" .null = .str s →
      alookup st.wallets s = none ∧ alookup st.wallets_config s = none ∧
        alookup st.wallets_updates s = none)
    (hio : ∀ s, pyGetD fields "xpub" .null = .str s → s.isEmpty = true ∨ io = .err) :
    ∃ msg, handle_request D io st ⟨auth, "application/json", some (.obj fields)⟩ =
      .ok (.failure (-32601) msg (pyGetD fields "id" .null), st) := by
  refine handle_request_builtin_keyerror D io st auth fields m hauth hm hmb
    (fun s hs => ⟨(hx s hs).2.1, (hx s hs).2.2⟩) ?_
  cases hxv : pyGetD fields "xpub" .null with
  | null => left; rfl
  | bool b =>
    cases b with
    | false => left; rfl
    | true => right; exact ⟨"TypeError", rfl⟩
  | num n =>
    by_cases hn : n = 0
    · subst hn; left; rfl
    · right
      exact ⟨"TypeError", load_wallet_num_truthy st n io (beq_eq_false_iff_ne.mpr hn)⟩
  | str s =>
    obtain ⟨hw, hc, hu⟩ := hx s hxv
    by_cases hse : s.isEmpty = true
    · left
      exact load_wallet_str_empty st s io hw hse
    · right
      have hioe : io = .err := by
        rcases hio s hxv with h | h
        · exact absurd h hse
        · exact h
      subst hioe
      exact ⟨"Exception", load_wallet_str_err st s hw (by rwa [Bool.not_eq_true] at hse)⟩
  | arr xs => right; exact ⟨"TypeError", rfl⟩
  | obj fs => right; exact ⟨"TypeError", rfl⟩

theorem builtin_unloaded_wallet_errors_witness :
    ∃ msg, handle_request sampleCtxAB .err ⟨[], [], []⟩
        ⟨some "Basic YTpi", "application/json", some (.obj [("method", .str "get_updates")])⟩ =
      .ok (.failure (-32601) msg .null, ⟨[], [], []⟩) :=
  builtin_unloaded_wallet_errors sampleCtxAB .err ⟨[], [], []⟩ (some "Basic YTpi")
    [("method", .str "get_updates")] "get_updates" (by decide) rfl (by decide)
    (fun s hs => Json.noConfusion hs) (fun s hs => Json.noConfusion hs)
